import Mathlib

/-!
Verification of the waveshare 7.5-inch V2 e-paper display driver
(`driver.go`): panel constants, the image-to-packed-buffer conversion
(`getBuffer`), and the protocol sequences (`reset`, `Init`, `display`,
`DisplayImage`, `Clear`, `Sleep`, `Close`, `New`) modelled as traces of
bus/pin events.
-/

namespace Waveshare

/-- Modelled from the spec: the panel width constant `EPD_WIDTH`
(defined outside `driver.go`); the resolution command payload encodes
source = 800. -/
def EPD_WIDTH : Nat := 800

/-- Modelled from the spec: the panel height constant `EPD_HEIGHT`
(defined outside `driver.go`); the resolution command payload encodes
gate = 480. -/
def EPD_HEIGHT : Nat := 480

/-- Modelled from the spec: the pixel-group size constant `PIXEL_SIZE`
(defined outside `driver.go`); 8 monochrome pixels are packed per output
byte. -/
def PIXEL_SIZE : Nat := 8

/-- Modelled from the spec: the power-off command opcode constant
`POWER_OFF` (defined outside `driver.go`); the spec names the command but
not its numeric value, which therefore does not affect any claim here. -/
def POWER_OFF : Nat := 0x02

/-- Modelled from the spec: the deep-sleep command opcode constant
`DEEP_SLEEP` (defined outside `driver.go`); the spec names the command but
not its numeric value, which therefore does not affect any claim here. -/
def DEEP_SLEEP : Nat := 0x07

/-- Modelled from the spec: a point of the host image library
(out-of-scope collaborator). -/
structure Point where
  x : Int
  y : Int
deriving DecidableEq, Repr

/-- Modelled from the spec: a rectangle of the host image library,
given by its min and max corner points. -/
structure Rectangle where
  Min : Point
  Max : Point
deriving DecidableEq, Repr

/-- Modelled from the spec: the host image library's `Rect` constructor,
which swaps coordinates so that `Min ≤ Max` componentwise. -/
def Rect (x0 y0 x1 y1 : Int) : Rectangle :=
  let p := if x0 > x1 then (x1, x0) else (x0, x1)
  let q := if y0 > y1 then (y1, y0) else (y0, y1)
  { Min := { x := p.1, y := q.1 }, Max := { x := p.2, y := q.2 } }

/-- Width of a rectangle, as in the host image library. -/
def Rectangle.Dx (r : Rectangle) : Int := r.Max.x - r.Min.x

/-- Height of a rectangle, as in the host image library. -/
def Rectangle.Dy (r : Rectangle) : Int := r.Max.y - r.Min.y

/-- Modelled from the spec: a raster image queried by coordinate;
each pixel carries a darkness measure on the 0-255 scale (the spec treats
the raster abstraction as an external collaborator and classifies a pixel
only through its darkness). -/
def Image : Type := Int → Int → Nat

/-- Modelled from the spec: the helper `isBlack` (defined outside
`driver.go`) classifies a pixel black exactly when its darkness measure
is at or above the caller-supplied threshold. -/
def isBlack (darkness : Nat) (threshold : Nat) : Bool :=
  decide (threshold ≤ darkness)

/-- The driver state of `driver.go`: the four pin handles (by BCM pin
number), the panel bounds, the packed-buffer size, and the packed-row
byte width. -/
structure Epd where
  dc : Nat
  cs : Nat
  rst : Nat
  busy : Nat
  bounds : Rectangle
  bufferSize : Nat
  pixelWidth : Nat
deriving DecidableEq, Repr

/-- The discrete signal lines of the driver. -/
inductive PinName where
  | dc
  | cs
  | rst
  | busy
deriving DecidableEq, Repr

/-- An observable side effect of the driver: a command transaction, a data
transaction, a discrete pin write, a timed delay, a busy-wait, or bus
teardown. -/
inductive Event where
  | cmd (b : Nat)
  | data (d : List Nat)
  | pinWrite (p : PinName) (high : Bool)
  | wait (ms : Nat)
  | waitIdle
  | spiEnd
  | rpioClose
deriving DecidableEq, Repr

/-- Modelled from the spec: `sendCommand` (defined outside `driver.go`)
emits one framed command transaction carrying exactly one byte; the
chip-select/data-command line handling inside the transaction belongs to
the out-of-scope transaction framer and is abstracted into the single
event. -/
def sendCommand (b : Nat) : List Event := [Event.cmd b]

/-- Modelled from the spec: `sendData` (defined outside `driver.go`)
emits one framed data transaction carrying the full payload. -/
def sendData (d : List Nat) : List Event := [Event.data d]

/-- Modelled from the spec: `sendCommandWithData` (defined outside
`driver.go`) is the composition of `sendCommand` and `sendData` as two
independent transactions. -/
def sendCommandWithData (b : Nat) (d : List Nat) : List Event :=
  sendCommand b ++ sendData d

/-- Modelled from the spec: the blocking delay helper `wait` (defined
outside `driver.go`), recorded as a delay event of the given duration in
milliseconds. -/
def wait (ms : Nat) : List Event := [Event.wait ms]

/-- Modelled from the spec: `waitUntilIdle` (defined outside `driver.go`)
polls the busy signal until it clears, recorded as a single busy-wait
event. -/
def waitUntilIdle : List Event := [Event.waitIdle]

/-- `driver.go` `reset`: drive the reset line high, wait 20 ms, drive it
low, wait 2 ms, drive it high, wait 20 ms. -/
def reset (e : Epd) : Epd × List Event :=
  (e, [Event.pinWrite PinName.rst true] ++ wait 20
    ++ [Event.pinWrite PinName.rst false] ++ wait 2
    ++ [Event.pinWrite PinName.rst true] ++ wait 20)

/-- `driver.go` `Init`: reset, then the fixed power-up command sequence. -/
def Init (e : Epd) : Epd × List Event :=
  let r := reset e
  (r.1, r.2
    ++ sendCommandWithData 0x01 [0x07, 0x07, 0x3f, 0x3f]
    ++ sendCommandWithData 0x06 [0x17, 0x17, 0x28, 0x17]
    ++ sendCommand 0x04 ++ wait 100 ++ waitUntilIdle
    ++ sendCommandWithData 0x00 [0x1F]
    ++ sendCommandWithData 0x61 [0x03, 0x20, 0x01, 0xE0]
    ++ sendCommandWithData 0x15 [0x00]
    ++ sendCommandWithData 0x50 [0x10, 0x17]
    ++ sendCommandWithData 0x52 [0x03]
    ++ sendCommandWithData 0x60 [0x22])

/-- `driver.go` `Bounds`: return the stored screen bounds. -/
def Bounds (e : Epd) : Rectangle := e.bounds

/-- The inner loop of `driver.go` `getBuffer`: starting from white 0x00,
OR in the mask `0x80 >> px` for each of the next `PIXEL_SIZE` pixels that
is classified black. -/
def packGroup (img : Image) (threshold : Nat) (x y : Nat) : Nat :=
  (List.range PIXEL_SIZE).foldl
    (fun pixel px =>
      if isBlack (img (Int.ofNat (x + px)) (Int.ofNat y)) threshold then
        pixel ||| (0x80 >>> px)
      else pixel)
    0x00

/-- `driver.go` `getBuffer`: allocate a zeroed buffer of `bufferSize`
bytes, then for each row `y < bounds.Dy()` and each `x` stepping by
`PIXEL_SIZE` below `bounds.Dx()` (so `x = i * PIXEL_SIZE` for
`i < ⌈Dx / PIXEL_SIZE⌉`), store the packed group byte at index
`y * pixelWidth + x / PIXEL_SIZE`. -/
def getBuffer (e : Epd) (img : Image) (threshold : Nat) : List Nat :=
  let buffer := List.replicate e.bufferSize 0x00
  (List.range e.bounds.Dy.toNat).foldl
    (fun buffer y =>
      (List.range ((e.bounds.Dx.toNat + PIXEL_SIZE - 1) / PIXEL_SIZE)).foldl
        (fun buffer i =>
          buffer.set (y * e.pixelWidth + (i * PIXEL_SIZE) / PIXEL_SIZE)
            (packGroup img threshold (i * PIXEL_SIZE) y))
        buffer)
    buffer

/-- `driver.go` `turnOnDisplay`: refresh-trigger command 0x12, 100 ms
delay, busy-wait. -/
def turnOnDisplay (e : Epd) : Epd × List Event :=
  (e, sendCommand 0x12 ++ wait 100 ++ waitUntilIdle)

/-- `driver.go` `display`: command 0x10 with the buffer as data, command
0x13 with the same buffer as data, then `turnOnDisplay`. -/
def display (e : Epd) (buffer : List Nat) : Epd × List Event :=
  (e, sendCommand 0x10 ++ sendData buffer
    ++ sendCommand 0x13 ++ sendData buffer
    ++ (turnOnDisplay e).2)

/-- `driver.go` `DisplayImage`: pack the image at threshold 199 and
display the buffer. -/
def DisplayImage (e : Epd) (img : Image) : Epd × List Event :=
  display e (getBuffer e img 199)

/-- `driver.go` `Clear`: command 0x10 with `EPD_HEIGHT` scanlines of the
local row buffer filled with 0xFF, command 0x13 with `EPD_HEIGHT`
scanlines of the row buffer refilled with 0x00, then `turnOnDisplay`.
The row buffer has `EPD_WIDTH / 8` bytes and its first
`w = ⌈EPD_WIDTH / PIXEL_SIZE⌉` bytes are (re)filled in place. -/
def Clear (e : Epd) : Epd × List Event :=
  let w := if EPD_WIDTH % PIXEL_SIZE = 0 then EPD_WIDTH / PIXEL_SIZE
    else EPD_WIDTH / PIXEL_SIZE + 1
  let h := EPD_HEIGHT
  let img0 := List.replicate (EPD_WIDTH / 8) 0x00
  let img1 := (List.range w).foldl (fun l i => l.set i 0xFF) img0
  let img2 := (List.range w).foldl (fun l i => l.set i 0x00) img1
  (e, sendCommand 0x10 ++ (List.range h).flatMap (fun _ => sendData img1)
    ++ sendCommand 0x13 ++ (List.range h).flatMap (fun _ => sendData img2)
    ++ (turnOnDisplay e).2)

/-- `driver.go` `Sleep`: power-off command, busy-wait, deep-sleep command
with the single payload byte 0xA5, then an unconditional 2000 ms delay. -/
def Sleep (e : Epd) : Epd × List Event :=
  (e, sendCommand POWER_OFF ++ waitUntilIdle
    ++ sendCommandWithData DEEP_SLEEP [0xa5]
    ++ wait 2000)

/-- `driver.go` `Close`: drive chip-select, data/command and reset low,
then release the SPI bus and the GPIO resources. -/
def Close (e : Epd) : Epd × List Event :=
  (e, [Event.pinWrite PinName.cs false, Event.pinWrite PinName.dc false,
    Event.pinWrite PinName.rst false, Event.spiEnd, Event.rpioClose])

/-- Modelled from the spec: the outcome of host resource acquisition
(GPIO open and SPI begin are out-of-scope collaborators that may fail);
`none` means the step succeeds. -/
structure HostEnv where
  openErr : Option String
  spiErr : Option String

/-- `driver.go` `New`: if opening the GPIO resource fails, return its
error; if beginning SPI fails, return its error; otherwise configure the
four pins, compute bounds, pixel width and buffer size, and return the
driver. No command, data or reset-line event is emitted on any path. -/
def New (env : HostEnv) : (Option Epd × Option String) × List Event :=
  match env.openErr with
  | some err => ((none, some err), [])
  | none =>
    match env.spiErr with
    | some err => ((none, some err), [])
    | none =>
      let bounds := Rect 0 0 (Int.ofNat EPD_WIDTH) (Int.ofNat EPD_HEIGHT)
      let pixelWidth := EPD_WIDTH / PIXEL_SIZE
      let bufferSize := pixelWidth * EPD_HEIGHT
      let d : Epd := { dc := 25, cs := 8, rst := 17, busy := 24,
                       bounds := bounds, bufferSize := bufferSize,
                       pixelWidth := pixelWidth }
      ((some d, none), [])

/-- The driver value `New` constructs on the success path. -/
def epd0 : Epd :=
  { dc := 25, cs := 8, rst := 17, busy := 24,
    bounds := Rect 0 0 (Int.ofNat EPD_WIDTH) (Int.ofNat EPD_HEIGHT),
    bufferSize := EPD_WIDTH / PIXEL_SIZE * EPD_HEIGHT,
    pixelWidth := EPD_WIDTH / PIXEL_SIZE }

/-- One public or internal operation on a constructed driver. -/
inductive Op where
  | initOp
  | boundsOp
  | getBufferOp (img : Image) (threshold : Nat)
  | displayOp (buffer : List Nat)
  | displayImageOp (img : Image)
  | clearOp
  | sleepOp
  | closeOp
  | resetOp

/-- Run one operation on the driver state, returning the driver state
after the call together with the emitted events (`Bounds` and `getBuffer`
are pure: they read fields and emit nothing). -/
def runOp (e : Epd) : Op → Epd × List Event
  | Op.initOp => Init e
  | Op.boundsOp => (e, [])
  | Op.getBufferOp _ _ => (e, [])
  | Op.displayOp buffer => display e buffer
  | Op.displayImageOp img => DisplayImage e img
  | Op.clearOp => Clear e
  | Op.sleepOp => Sleep e
  | Op.closeOp => Close e
  | Op.resetOp => reset e

/-- Run a sequence of operations, threading the driver state. -/
def runOps (e : Epd) (ops : List Op) : Epd :=
  ops.foldl (fun e op => (runOp e op).1) e

/-- A fold whose step preserves list length preserves list length. -/
theorem foldl_pres_length {α β : Type} (step : List β → α → List β)
    (hstep : ∀ l a, (step l a).length = l.length) :
    ∀ (xs : List α) (l : List β), (xs.foldl step l).length = l.length := by
  intro xs
  induction xs with
  | nil => intro l; rfl
  | cons a xs ih =>
    intro l
    simp only [List.foldl_cons]
    rw [ih, hstep]

/-- Element lookup after folding writes at indices `base + i` for
`i < n`: positions inside the written window hold the written value,
positions outside are untouched. -/
theorem foldl_set_getElem? {β : Type} (f : Nat → β) (idx : Nat → Nat) (base : Nat)
    (hidx : ∀ i, idx i = base + i) :
    ∀ (n : Nat) (l : List β) (j : Nat), base + n ≤ l.length →
    ((List.range n).foldl (fun l i => l.set (idx i) (f i)) l)[j]?
      = if base ≤ j ∧ j < base + n then some (f (j - base)) else l[j]? := by
  intro n
  induction n with
  | zero =>
    intro l j _
    simp only [List.range_zero, List.foldl_nil]
    rw [if_neg (by omega : ¬(base ≤ j ∧ j < base + 0))]
  | succ n ih =>
    intro l j h
    rw [show List.range (n + 1) = List.range n ++ [n] from List.range_succ n,
      List.foldl_append]
    simp only [List.foldl_cons, List.foldl_nil]
    rw [hidx n, List.getElem?_set]
    rw [foldl_pres_length (fun l i => l.set (idx i) (f i))
      (fun l i => List.length_set l (idx i) (f i)) (List.range n) l]
    rw [ih l j (by omega)]
    split_ifs <;>
      first
        | rfl
        | omega
        | rw [(by omega : j - base = n)]

/-- Element lookup after folding rows of 100 writes each, row `y`
writing indices `y * 100 + i` for `i < 100`: position `j` below
`m * 100` holds the value written for row `j / 100`, column `j % 100`. -/
theorem foldl_rows_getElem? {β : Type} (g : Nat → Nat → β) (idx : Nat → Nat → Nat)
    (hidx : ∀ y i, idx y i = y * 100 + i) :
    ∀ (m : Nat) (l : List β) (j : Nat), m * 100 ≤ l.length →
    ((List.range m).foldl
        (fun l y => (List.range 100).foldl (fun l i => l.set (idx y i) (g y i)) l) l)[j]?
      = if j < m * 100 then some (g (j / 100) (j % 100)) else l[j]? := by
  intro m
  induction m with
  | zero =>
    intro l j _
    simp
  | succ m ih =>
    intro l j h
    rw [show List.range (m + 1) = List.range m ++ [m] from List.range_succ m,
      List.foldl_append]
    simp only [List.foldl_cons, List.foldl_nil]
    have hlen : ((List.range m).foldl
        (fun l y => (List.range 100).foldl (fun l i => l.set (idx y i) (g y i)) l) l).length
        = l.length := by
      refine foldl_pres_length _ (fun l' y => ?_) (List.range m) l
      exact foldl_pres_length _ (fun l'' i => List.length_set l'' (idx y i) (g y i))
        (List.range 100) l'
    rw [foldl_set_getElem? (g m) (idx m) (m * 100) (hidx m) 100 _ j (by omega)]
    rw [ih l j (by omega)]
    split_ifs <;>
      first
        | rfl
        | omega
        | rw [(by omega : j / 100 = m), (by omega : j % 100 = j - m * 100)]

/-- `getBuffer` returns a buffer of exactly `bufferSize` bytes. -/
theorem getBuffer_length (e : Epd) (img : Image) (t : Nat) :
    (getBuffer e img t).length = e.bufferSize := by
  have h : ((List.range e.bounds.Dy.toNat).foldl
      (fun buffer y =>
        (List.range ((e.bounds.Dx.toNat + PIXEL_SIZE - 1) / PIXEL_SIZE)).foldl
          (fun buffer i =>
            buffer.set (y * e.pixelWidth + (i * PIXEL_SIZE) / PIXEL_SIZE)
              (packGroup img t (i * PIXEL_SIZE) y))
          buffer)
      (List.replicate e.bufferSize 0x00)).length
      = (List.replicate e.bufferSize (0x00 : Nat)).length := by
    refine foldl_pres_length _ (fun l y => ?_) _ _
    exact foldl_pres_length _ (fun l' i => List.length_set l' _ _) _ _
  calc (getBuffer e img t).length
      = (List.replicate e.bufferSize (0x00 : Nat)).length := h
    _ = e.bufferSize := List.length_replicate ..

/-- For the driver constructed by `New`, byte `j` of `getBuffer` is the
packed group byte of row `j / 100` with group start pixel
`(j % 100) * PIXEL_SIZE`. -/
theorem getBuffer_epd0_getElem? (img : Image) (t j : Nat) :
    (getBuffer epd0 img t)[j]? =
      if j < 48000 then some (packGroup img t ((j % 100) * PIXEL_SIZE) (j / 100))
      else none := by
  have h := foldl_rows_getElem?
    (fun y i => packGroup img t (i * PIXEL_SIZE) y)
    (fun y i => y * epd0.pixelWidth + (i * PIXEL_SIZE) / PIXEL_SIZE)
    (fun y i => by show y * 100 + i * 8 / 8 = y * 100 + i; omega)
    480 (List.replicate 48000 (0x00 : Nat)) j
    (by rw [List.length_replicate])
  have hgb : (getBuffer epd0 img t)[j]? =
      ((List.range 480).foldl
        (fun l y => (List.range 100).foldl
          (fun l i => l.set (y * epd0.pixelWidth + (i * PIXEL_SIZE) / PIXEL_SIZE)
            (packGroup img t (i * PIXEL_SIZE) y)) l)
        (List.replicate 48000 (0x00 : Nat)))[j]? := rfl
  refine (hgb.trans h).trans ?_
  by_cases hj : j < 48000
  · rw [if_pos (show j < 480 * 100 by omega), if_pos hj]
  · rw [if_neg (show ¬j < 480 * 100 by omega), if_neg hj]
    exact List.getElem?_eq_none (by rw [List.length_replicate]; omega)

/-- Bit `j` of the conditional OR accumulator step. -/
theorem testBit_setIf (c : Bool) (p m j : Nat) :
    Nat.testBit (if c = true then p ||| m else p) j
      = (Nat.testBit p j || (c && Nat.testBit m j)) := by
  cases c <;> simp [Nat.testBit_or]

/-- Bit `j` after folding conditional OR masks over a pixel offset list. -/
theorem testBit_foldl_masks (cond : Nat → Bool) :
    ∀ (l : List Nat) (acc j : Nat),
    Nat.testBit
        (l.foldl (fun p px => if cond px = true then p ||| (0x80 >>> px) else p) acc) j
      = (Nat.testBit acc j
          || l.any (fun px => cond px && Nat.testBit (0x80 >>> px) j)) := by
  intro l
  induction l with
  | nil =>
    intro acc j
    simp
  | cons a l ih =>
    intro acc j
    simp only [List.foldl_cons, List.any_cons]
    rw [ih, testBit_setIf, Bool.or_assoc]

/-- Bit positions of the byte 0x80. -/
theorem testBit128 : ∀ j < 16, Nat.testBit 128 j = decide (j = 7) := by decide

/-- Bit `7 - k` (the `k`-th counted from the most significant bit) of a
packed group byte equals the black-classification of pixel `x + k`. -/
theorem testBit_packGroup (img : Image) (t x y k : Nat) (hk : k < 8) :
    Nat.testBit (packGroup img t x y) (PIXEL_SIZE - 1 - k)
      = isBlack (img (Int.ofNat (x + k)) (Int.ofNat y)) t := by
  calc Nat.testBit (packGroup img t x y) (PIXEL_SIZE - 1 - k)
      = (Nat.testBit 0x00 (PIXEL_SIZE - 1 - k)
          || (List.range 8).any (fun px =>
              isBlack (img (Int.ofNat (x + px)) (Int.ofNat y)) t
                && Nat.testBit (0x80 >>> px) (PIXEL_SIZE - 1 - k))) :=
        testBit_foldl_masks
          (fun px => isBlack (img (Int.ofNat (x + px)) (Int.ofNat y)) t)
          (List.range 8) 0x00 (PIXEL_SIZE - 1 - k)
    _ = isBlack (img (Int.ofNat (x + k)) (Int.ofNat y)) t := by
        rw [show (List.range 8) = [0, 1, 2, 3, 4, 5, 6, 7] from rfl,
          show PIXEL_SIZE - 1 - k = 7 - k from rfl]
        interval_cases k <;> simp [testBit128]

/-- A packed group byte whose pixels all classify the same way is 0xFF
(all black) or 0x00 (all white). -/
theorem packGroup_const (img : Image) (t x y : Nat) (b : Bool)
    (h : ∀ px, px < PIXEL_SIZE →
      isBlack (img (Int.ofNat (x + px)) (Int.ofNat y)) t = b) :
    packGroup img t x y = if b = true then 0xFF else 0x00 := by
  show (List.range 8).foldl
      (fun pixel px =>
        if isBlack (img (Int.ofNat (x + px)) (Int.ofNat y)) t = true then
          pixel ||| (0x80 >>> px)
        else pixel)
      0x00 = _
  rw [show (List.range 8) = [0, 1, 2, 3, 4, 5, 6, 7] from rfl]
  simp only [List.foldl_cons, List.foldl_nil]
  rw [h 0 (by decide), h 1 (by decide), h 2 (by decide), h 3 (by decide),
    h 4 (by decide), h 5 (by decide), h 6 (by decide), h 7 (by decide)]
  cases b <;> rfl

/-- A packed group byte that is all white except one black pixel at
offset `k` is exactly the mask `0x80 >> k`. -/
theorem packGroup_single (img : Image) (t x y k : Nat) (hk : k < 8)
    (h : ∀ px, px < PIXEL_SIZE →
      isBlack (img (Int.ofNat (x + px)) (Int.ofNat y)) t = decide (px = k)) :
    packGroup img t x y = 0x80 >>> k := by
  show (List.range 8).foldl
      (fun pixel px =>
        if isBlack (img (Int.ofNat (x + px)) (Int.ofNat y)) t = true then
          pixel ||| (0x80 >>> px)
        else pixel)
      0x00 = _
  rw [show (List.range 8) = [0, 1, 2, 3, 4, 5, 6, 7] from rfl]
  simp only [List.foldl_cons, List.foldl_nil]
  rw [h 0 (by decide), h 1 (by decide), h 2 (by decide), h 3 (by decide),
    h 4 (by decide), h 5 (by decide), h 6 (by decide), h 7 (by decide)]
  interval_cases k <;> rfl

/-- C1: for every source image and every threshold, the byte of the
packed buffer at row-major index `y * (W/G) + x/G` is the packed byte of
the pixel group starting at `(x/G)*G`; bit `x % G` counted from the most
significant bit of that byte is 1 exactly when pixel `(x, y)` is
classified black; and a group that is all white except one black pixel at
offset `k = x % G` yields exactly the byte `0x80 >> k`. -/
theorem getBuffer_packs_msb_first (img : Image) (t x y : Nat)
    (hx : x < EPD_WIDTH) (hy : y < EPD_HEIGHT) :
    (getBuffer epd0 img t)[y * (EPD_WIDTH / PIXEL_SIZE) + x / PIXEL_SIZE]?
        = some (packGroup img t (x / PIXEL_SIZE * PIXEL_SIZE) y)
    ∧ Nat.testBit (packGroup img t (x / PIXEL_SIZE * PIXEL_SIZE) y)
        (PIXEL_SIZE - 1 - x % PIXEL_SIZE)
        = isBlack (img (Int.ofNat x) (Int.ofNat y)) t
    ∧ ((∀ px, px < PIXEL_SIZE →
          isBlack (img (Int.ofNat (x / PIXEL_SIZE * PIXEL_SIZE + px)) (Int.ofNat y)) t
            = decide (px = x % PIXEL_SIZE)) →
        packGroup img t (x / PIXEL_SIZE * PIXEL_SIZE) y
          = 0x80 >>> (x % PIXEL_SIZE)) := by
  have hx' : x < 800 := hx
  have hy' : y < 480 := hy
  refine ⟨?_, ?_, ?_⟩
  · rw [getBuffer_epd0_getElem?,
      show EPD_WIDTH = 800 from rfl, show PIXEL_SIZE = 8 from rfl]
    rw [if_pos (by omega : y * (800 / 8) + x / 8 < 48000)]
    rw [(by omega : (y * (800 / 8) + x / 8) % 100 = x / 8),
      (by omega : (y * (800 / 8) + x / 8) / 100 = y)]
  · have h := testBit_packGroup img t (x / PIXEL_SIZE * PIXEL_SIZE) y (x % PIXEL_SIZE)
      (by show x % 8 < 8; omega)
    rw [show x / PIXEL_SIZE * PIXEL_SIZE + x % PIXEL_SIZE = x from by
      show x / 8 * 8 + x % 8 = x; omega] at h
    exact h
  · intro hsingle
    exact packGroup_single img t (x / PIXEL_SIZE * PIXEL_SIZE) y (x % PIXEL_SIZE)
      (by show x % 8 < 8; omega) hsingle

/-- Witness for C1 at the all-black image, threshold 199, pixel (11, 2). -/
theorem getBuffer_packs_msb_first_witness :
    11 < EPD_WIDTH ∧ 2 < EPD_HEIGHT ∧
    ((getBuffer epd0 (fun _ _ => 255) 199)[2 * (EPD_WIDTH / PIXEL_SIZE) + 11 / PIXEL_SIZE]?
        = some (packGroup (fun _ _ => 255) 199 (11 / PIXEL_SIZE * PIXEL_SIZE) 2)
      ∧ Nat.testBit (packGroup (fun _ _ => 255) 199 (11 / PIXEL_SIZE * PIXEL_SIZE) 2)
          (PIXEL_SIZE - 1 - 11 % PIXEL_SIZE)
          = isBlack ((fun (_ _ : Int) => 255) (Int.ofNat 11) (Int.ofNat 2)) 199
      ∧ ((∀ px, px < PIXEL_SIZE →
            isBlack ((fun (_ _ : Int) => 255)
                (Int.ofNat (11 / PIXEL_SIZE * PIXEL_SIZE + px)) (Int.ofNat 2)) 199
              = decide (px = 11 % PIXEL_SIZE)) →
          packGroup (fun _ _ => 255) 199 (11 / PIXEL_SIZE * PIXEL_SIZE) 2
            = 0x80 >>> (11 % PIXEL_SIZE))) :=
  ⟨by decide, by decide,
    getBuffer_packs_msb_first (fun _ _ => 255) 199 11 2 (by decide) (by decide)⟩

/-- C2: for every input image and threshold, `getBuffer` returns a buffer
of exactly `bufferSize` bytes, which for the constructed driver is
`(W/G) * H`. -/
theorem getBuffer_length_spec (e : Epd) (img : Image) (t : Nat) :
    (getBuffer e img t).length = e.bufferSize
    ∧ (getBuffer epd0 img t).length = EPD_WIDTH / PIXEL_SIZE * EPD_HEIGHT :=
  ⟨getBuffer_length e img t, getBuffer_length epd0 img t⟩

/-- C3: `DisplayImage` emits command 0x10, one data transaction carrying
the packed buffer, command 0x13, a second data transaction carrying the
byte-identical buffer (exactly two data writes, of equal length), then
the refresh command 0x12, a 100 ms delay, and a busy-wait. -/
theorem displayImage_two_equal_data_writes (e : Epd) (img : Image) :
    (DisplayImage e img).2 =
      [Event.cmd 0x10, Event.data (getBuffer e img 199),
        Event.cmd 0x13, Event.data (getBuffer e img 199),
        Event.cmd 0x12, Event.wait 100, Event.waitIdle]
    ∧ (DisplayImage e img).2.filter
        (fun ev => match ev with | Event.data _ => true | _ => false)
      = [Event.data (getBuffer e img 199), Event.data (getBuffer e img 199)] :=
  ⟨rfl, rfl⟩

/-- C4: `Clear` emits command 0x10 followed by `H` scanlines of
`⌈W/G⌉` bytes 0xFF each, command 0x13 followed by `H` scanlines of
`⌈W/G⌉` bytes 0x00 each, then the refresh command, the 100 ms delay and
the busy-wait of Turn-On-Display. -/
theorem clear_two_phase_payload (e : Epd) :
    (Clear e).2 =
      [Event.cmd 0x10]
      ++ List.replicate EPD_HEIGHT
          (Event.data (List.replicate ((EPD_WIDTH + PIXEL_SIZE - 1) / PIXEL_SIZE) 0xFF))
      ++ [Event.cmd 0x13]
      ++ List.replicate EPD_HEIGHT
          (Event.data (List.replicate ((EPD_WIDTH + PIXEL_SIZE - 1) / PIXEL_SIZE) 0x00))
      ++ [Event.cmd 0x12, Event.wait 100, Event.waitIdle] := by
  set_option maxRecDepth 8000 in rfl

/-- C5: `Init` performs the reset pulse and then issues, in strict
order, power-setting 0x01, booster 0x06, power-on 0x04 followed by a
100 ms delay and a busy-wait, panel-setting 0x00, resolution 0x61 (whose
payload encodes the 800x480 panel geometry), 0x15, data-interval 0x50,
and the tuning commands 0x52 and 0x60, each with its payload. -/
theorem init_command_sequence (e : Epd) :
    (Init e).2 =
      [Event.pinWrite PinName.rst true, Event.wait 20,
        Event.pinWrite PinName.rst false, Event.wait 2,
        Event.pinWrite PinName.rst true, Event.wait 20,
        Event.cmd 0x01, Event.data [0x07, 0x07, 0x3f, 0x3f],
        Event.cmd 0x06, Event.data [0x17, 0x17, 0x28, 0x17],
        Event.cmd 0x04, Event.wait 100, Event.waitIdle,
        Event.cmd 0x00, Event.data [0x1F],
        Event.cmd 0x61, Event.data [0x03, 0x20, 0x01, 0xE0],
        Event.cmd 0x15, Event.data [0x00],
        Event.cmd 0x50, Event.data [0x10, 0x17],
        Event.cmd 0x52, Event.data [0x03],
        Event.cmd 0x60, Event.data [0x22]]
    ∧ 0x03 * 256 + 0x20 = EPD_WIDTH ∧ 0x01 * 256 + 0xE0 = EPD_HEIGHT :=
  ⟨rfl, rfl, rfl⟩

/-- C6: the reset pulse is exactly reset high, 20 ms, reset low, 2 ms,
reset high, 20 ms, with no other signal or bus activity interleaved. -/
theorem reset_pulse_sequence (e : Epd) :
    (reset e).2 =
      [Event.pinWrite PinName.rst true, Event.wait 20,
        Event.pinWrite PinName.rst false, Event.wait 2,
        Event.pinWrite PinName.rst true, Event.wait 20] := rfl

/-- C7: `Sleep` issues the power-off command, busy-waits, issues the
deep-sleep command with the single payload byte 0xA5, then waits 2000 ms
unconditionally, with no busy-wait after the deep-sleep command. -/
theorem sleep_sequence (e : Epd) :
    (Sleep e).2 =
      [Event.cmd POWER_OFF, Event.waitIdle,
        Event.cmd DEEP_SLEEP, Event.data [0xa5], Event.wait 2000] := rfl

/-- C8: at threshold 199 an all-white image (darkness 0) packs to all
0x00 bytes and an all-black image (darkness 255) packs to all 0xFF
bytes, and `DisplayImage` packs its image at exactly threshold 199. -/
theorem threshold_classification :
    (∀ img : Image, (∀ a b : Int, img a b = 0) →
      getBuffer epd0 img 199
        = List.replicate (EPD_WIDTH / PIXEL_SIZE * EPD_HEIGHT) 0x00)
    ∧ (∀ img : Image, (∀ a b : Int, img a b = 255) →
      getBuffer epd0 img 199
        = List.replicate (EPD_WIDTH / PIXEL_SIZE * EPD_HEIGHT) 0xFF)
    ∧ (∀ (e : Epd) (img : Image),
      DisplayImage e img = display e (getBuffer e img 199)) := by
  refine ⟨?_, ?_, fun e img => rfl⟩
  · intro img himg
    refine List.ext_getElem? (fun j => ?_)
    rw [getBuffer_epd0_getElem?, List.getElem?_replicate]
    have hp : ∀ x y : Nat, packGroup img 199 x y = 0x00 := by
      intro x y
      have hc := packGroup_const img 199 x y false (fun px _ => by rw [himg]; rfl)
      simpa using hc
    by_cases hj : j < 48000
    · rw [if_pos hj, if_pos (show j < EPD_WIDTH / PIXEL_SIZE * EPD_HEIGHT from hj), hp]
    · rw [if_neg hj, if_neg (show ¬j < EPD_WIDTH / PIXEL_SIZE * EPD_HEIGHT from hj)]
  · intro img himg
    refine List.ext_getElem? (fun j => ?_)
    rw [getBuffer_epd0_getElem?, List.getElem?_replicate]
    have hp : ∀ x y : Nat, packGroup img 199 x y = 0xFF := by
      intro x y
      have hc := packGroup_const img 199 x y true (fun px _ => by rw [himg]; rfl)
      simpa using hc
    by_cases hj : j < 48000
    · rw [if_pos hj, if_pos (show j < EPD_WIDTH / PIXEL_SIZE * EPD_HEIGHT from hj), hp]
    · rw [if_neg hj, if_neg (show ¬j < EPD_WIDTH / PIXEL_SIZE * EPD_HEIGHT from hj)]

/-- Witness for C8 at the constant all-white and all-black images. -/
theorem threshold_classification_witness :
    getBuffer epd0 (fun _ _ => 0) 199
        = List.replicate (EPD_WIDTH / PIXEL_SIZE * EPD_HEIGHT) 0x00
    ∧ getBuffer epd0 (fun _ _ => 255) 199
        = List.replicate (EPD_WIDTH / PIXEL_SIZE * EPD_HEIGHT) 0xFF :=
  ⟨threshold_classification.1 (fun _ _ => 0) (fun _ _ => rfl),
    threshold_classification.2.1 (fun _ _ => 255) (fun _ _ => rfl)⟩

/-- C9: if acquiring the GPIO or SPI resource fails, `New` returns no
driver and a non-nil error having performed no panel I/O; on success it
returns the constructed driver and a nil error, still with no panel
I/O. -/
theorem new_error_handling (env : HostEnv) :
    ((env.openErr.isSome = true ∨ env.spiErr.isSome = true) →
      (New env).1.1 = none ∧ (New env).1.2.isSome = true ∧ (New env).2 = [])
    ∧ (env.openErr = none → env.spiErr = none →
      (New env).1.1 = some epd0 ∧ (New env).1.2 = none ∧ (New env).2 = []) := by
  obtain ⟨o, s⟩ := env
  constructor
  · intro h
    cases o with
    | some err => exact ⟨rfl, rfl, rfl⟩
    | none =>
      cases s with
      | some err => exact ⟨rfl, rfl, rfl⟩
      | none => simp at h
  · intro h1 h2
    subst h1
    subst h2
    exact ⟨rfl, rfl, rfl⟩

/-- Witness for C9: one failing environment and one succeeding one. -/
theorem new_error_handling_witness :
    ((New { openErr := some "open failed", spiErr := none }).1.1 = none
      ∧ (New { openErr := some "open failed", spiErr := none }).1.2.isSome = true
      ∧ (New { openErr := some "open failed", spiErr := none }).2 = [])
    ∧ ((New { openErr := none, spiErr := none }).1.1 = some epd0
      ∧ (New { openErr := none, spiErr := none }).1.2 = none
      ∧ (New { openErr := none, spiErr := none }).2 = []) :=
  ⟨(new_error_handling { openErr := some "open failed", spiErr := none }).1
      (Or.inl rfl),
    (new_error_handling { openErr := none, spiErr := none }).2 rfl rfl⟩

/-- C10: every operation on a constructed driver leaves the driver state
(all fields of `Epd`) unchanged, and `Bounds` returns the same rectangle
(0,0)-(W,H) after any sequence of operations as immediately after
`New`. -/
theorem operations_preserve_state (ops : List Op) :
    (∀ e : Epd, runOps e ops = e)
    ∧ Bounds (runOps epd0 ops)
        = Rect 0 0 (Int.ofNat EPD_WIDTH) (Int.ofNat EPD_HEIGHT) := by
  have hstep : ∀ (e : Epd) (op : Op), (runOp e op).1 = e := by
    intro e op
    cases op <;> rfl
  have hall : ∀ (l : List Op) (e : Epd), runOps e l = e := by
    intro l
    induction l with
    | nil => intro e; rfl
    | cons op l ih =>
      intro e
      show runOps (runOp e op).1 l = e
      rw [hstep, ih]
  exact ⟨hall ops, by rw [hall ops epd0]; rfl⟩

end Waveshare
